import Mathlib

/-!
Verification of the book-notes server: a shallow embedding of the
per-user note store, the auth gate, the token service and the
credential operations, together with theorems about them.

The embedding follows src/server/src/index.js, src/server/src/auth.js
and the non-authenticated server variant. SQL tables are lists of rows,
SQL filters are list filters, ORDER BY id DESC is an insertion sort
under the relation "greater-or-equal id".
-/

namespace BookNotes

/-! ### Note store rows and projections -/

/-- A row of the notes table in the authenticated variant:
id (primary key), user_id (owner), book_title, author, note (body),
created_at. -/
structure NoteRow where
  id : Nat
  userId : Nat
  bookTitle : String
  author : String
  note : String
  createdAt : Nat
deriving DecidableEq, Repr

/-- The column set selected by the list and get-one queries of the
authenticated variant: id, bookTitle, author, note, createdAt. -/
structure NoteFull where
  id : Nat
  bookTitle : String
  author : String
  note : String
  createdAt : Nat
deriving DecidableEq, Repr

/-- Projection of a stored row onto the selected columns. -/
def projFull (n : NoteRow) : NoteFull :=
  ⟨n.id, n.bookTitle, n.author, n.note, n.createdAt⟩

/-- Ordering used by ORDER BY id DESC: a row comes no later than
another when its id is at least as large. -/
def descRow (a b : NoteRow) : Prop := b.id ≤ a.id

instance : DecidableRel descRow := fun a b => Nat.decLe b.id a.id

instance : IsTotal NoteRow descRow := ⟨fun a b => (Nat.le_total b.id a.id)⟩

instance : IsTrans NoteRow descRow :=
  ⟨fun _ _ _ hab hbc => Nat.le_trans hbc hab⟩

/-- GET /api/notes of the authenticated variant: SELECT the full column
set FROM notes WHERE user_id matches the authenticated user, ORDER BY
id DESC. -/
def listByOwner (db : List NoteRow) (uid : Nat) : List NoteFull :=
  (List.insertionSort descRow (db.filter (fun n => n.userId == uid))).map projFull

/-- The row predicate of the point queries: WHERE id = $1 AND
user_id = $2. The id parameter is an integer because it arrives as a
converted path parameter. -/
def matchRow (i : Int) (uid : Nat) (n : NoteRow) : Bool :=
  ((n.id : Int) == i) && n.userId == uid

/-- The SELECT of GET /api/notes/:id: first row WHERE id = $1 AND
user_id = $2, projected onto the selected columns. -/
def getOne (db : List NoteRow) (i : Int) (uid : Nat) : Option NoteFull :=
  (db.find? (matchRow i uid)).map projFull

/-- DELETE FROM notes WHERE id = $1 AND user_id = $2: the remaining
table and the affected row count. -/
def deleteOne (db : List NoteRow) (i : Int) (uid : Nat) : List NoteRow × Nat :=
  (db.filter (fun n => !(matchRow i uid n)), db.countP (matchRow i uid))

/-! ### Handlers of the authenticated variant -/

/-- The result of converting the :id path parameter with Number and
testing it with Number.isFinite: either a finite number or not finite
(NaN or an infinity). -/
inductive JsNum
  | finite (n : Int)
  | notFinite
deriving DecidableEq, Repr

/-- Response of the get-one handler. -/
inductive GetResp
  | ok (row : NoteFull)
  | err (status : Nat) (msg : String)
deriving DecidableEq, Repr

/-- Outcome of the get-one handler: the response and whether a storage
query was issued on this request. -/
structure GetOutcome where
  resp : GetResp
  queried : Bool
deriving DecidableEq, Repr

/-- GET /api/notes/:id of the authenticated variant: reject a non
finite id with 400 before any storage access, otherwise query by id
and owner and answer 404 when no row comes back. -/
def getNoteHandler (db : List NoteRow) (uid : Nat) (idParam : JsNum) : GetOutcome :=
  match idParam with
  | .notFinite => ⟨.err 400 "Invalid id", false⟩
  | .finite i =>
    match getOne db i uid with
    | none => ⟨.err 404 "Not found", true⟩
    | some row => ⟨.ok row, true⟩

/-- Response of the delete handler. -/
inductive DelResp
  | ok
  | err (status : Nat) (msg : String)
deriving DecidableEq, Repr

/-- Outcome of the delete handler: the response, the note table after
the request, and whether a storage query was issued. -/
structure DelOutcome where
  resp : DelResp
  store : List NoteRow
  queried : Bool
deriving DecidableEq, Repr

/-- DELETE /api/notes/:id of the authenticated variant: reject a non
finite id with 400 before any storage access, otherwise delete by id
and owner and answer 404 when the affected row count is zero. -/
def deleteNoteHandler (db : List NoteRow) (uid : Nat) (idParam : JsNum) : DelOutcome :=
  match idParam with
  | .notFinite => ⟨.err 400 "Invalid id", db, false⟩
  | .finite i =>
    let r := deleteOne db i uid
    if r.2 == 0 then ⟨.err 404 "Not found", r.1, true⟩
    else ⟨.ok, r.1, true⟩

/-! ### The non-authenticated variant -/

/-- A row of the notes table in the non-authenticated variant: no
owner column, createdAt an ISO string. -/
structure BasicNote where
  id : Nat
  bookTitle : String
  author : String
  note : String
  createdAt : String
deriving DecidableEq, Repr

/-- The column set of the non-authenticated list query: id, bookTitle,
author, createdAt — the note body is not selected. -/
structure BasicSummary where
  id : Nat
  bookTitle : String
  author : String
  createdAt : String
deriving DecidableEq, Repr

/-- Projection onto the non-authenticated list columns. -/
def projBasicSummary (n : BasicNote) : BasicSummary :=
  ⟨n.id, n.bookTitle, n.author, n.createdAt⟩

/-- Descending-id ordering for the non-authenticated variant. -/
def descBasic (a b : BasicNote) : Prop := b.id ≤ a.id

instance : DecidableRel descBasic := fun a b => Nat.decLe b.id a.id

instance : IsTotal BasicNote descBasic := ⟨fun a b => (Nat.le_total b.id a.id)⟩

instance : IsTrans BasicNote descBasic :=
  ⟨fun _ _ _ hab hbc => Nat.le_trans hbc hab⟩

/-- GET /api/notes of the non-authenticated variant: SELECT id,
bookTitle, author, createdAt FROM notes ORDER BY id DESC. -/
def listNotesBasic (db : List BasicNote) : List BasicSummary :=
  (List.insertionSort descBasic db).map projBasicSummary

/-- Response of the non-authenticated get-one handler. -/
inductive BasicGetResp
  | ok (row : BasicNote)
  | err (status : Nat) (msg : String)
deriving DecidableEq, Repr

/-- Outcome of the non-authenticated get-one handler. -/
structure BasicGetOutcome where
  resp : BasicGetResp
  queried : Bool
deriving DecidableEq, Repr

/-- GET /api/notes/:id of the non-authenticated variant. -/
def getNoteBasicHandler (db : List BasicNote) (idParam : JsNum) : BasicGetOutcome :=
  match idParam with
  | .notFinite => ⟨.err 400 "Invalid id", false⟩
  | .finite i =>
    match db.find? (fun n => (n.id : Int) == i) with
    | none => ⟨.err 404 "Not found", true⟩
    | some row => ⟨.ok row, true⟩

/-- Outcome of the non-authenticated delete handler. -/
structure BasicDelOutcome where
  resp : DelResp
  store : List BasicNote
  queried : Bool
deriving DecidableEq, Repr

/-- DELETE /api/notes/:id of the non-authenticated variant. -/
def deleteNoteBasicHandler (db : List BasicNote) (idParam : JsNum) : BasicDelOutcome :=
  match idParam with
  | .notFinite => ⟨.err 400 "Invalid id", db, false⟩
  | .finite i =>
    let rest := db.filter (fun n => !((n.id : Int) == i))
    if db.countP (fun n => (n.id : Int) == i) == 0 then ⟨.err 404 "Not found", rest, true⟩
    else ⟨.ok, rest, true⟩

/-! ### Character-level string helpers

The JavaScript string operations used by the source (split on a
separator, toLowerCase, includes) are embedded structurally over the
character list of the string. -/

/-- Split a character list at every character satisfying p, keeping
empty pieces, as the JavaScript split does. The accumulator holds the
current piece reversed. -/
def splitAux (p : Char → Bool) : List Char → List Char → List (List Char)
  | [], acc => [acc.reverse]
  | c :: cs, acc =>
    if p c then acc.reverse :: splitAux p cs []
    else splitAux p cs (c :: acc)

/-- JavaScript split of a string at every character satisfying p:
empty pieces are kept and the empty string yields one empty piece. -/
def jsSplit (p : Char → Bool) (s : String) : List String :=
  (splitAux p s.data []).map (fun l => ⟨l⟩)

/-- JavaScript toLowerCase, embedded as lowering every character. -/
def strLower (s : String) : String :=
  ⟨s.data.map Char.toLower⟩

/-! ### Token service -/

/-- The identity claims carried by a token: user id and email. -/
structure Claims where
  id : Nat
  email : String
deriving DecidableEq, Repr

/-- The two verification failures of the token service. -/
inductive VerifyError
  | invalid
  | expired
deriving DecidableEq, Repr

/-- The fixed validity window of a token, in seconds: 7 days. -/
def sevenDays : Nat := 7 * 24 * 60 * 60

/-- A token as issued by signToken in auth.js: a signed bundle of the
identity claims, the issue time and the signing secret used. -/
structure Token where
  tokId : Nat
  tokEmail : String
  iat : Nat
  sig : Nat
deriving DecidableEq, Repr

/-- signToken of auth.js: sign the claims with the server secret and a
validity of 7 days. Modelled from the spec: the signing itself happens
inside the external jsonwebtoken library; per the spec the token is a
signed bundle of user id, email, issued-at and an expiry fixed at 7
days from issuance. -/
def signToken (secret now : Nat) (c : Claims) : Token :=
  ⟨c.id, c.email, now, secret⟩

/-- Token verification. Modelled from the spec: the check itself
happens inside the external jsonwebtoken library; per the spec it
validates signature and expiry, a token issued at time T being accepted
for all requests up to T plus 7 days and rejected as expired after,
and rejected as invalid when the signature does not match the server
secret. -/
def verifyToken (secret now : Nat) (t : Token) : Except VerifyError Claims :=
  if t.sig ≠ secret then .error .invalid
  else if now ≤ t.iat + sevenDays then .ok ⟨t.tokId, t.tokEmail⟩
  else .error .expired

/-! ### Auth gate -/

/-- Result of the auth gate: either a 401 rejection or the resolved
identity bound into the request context for downstream handlers. -/
inductive AuthResult
  | reject (status : Nat) (msg : String)
  | ok (user : Claims)
deriving DecidableEq, Repr

/-- requireAuth of auth.js: read the authorization header (empty when
missing), split it on the space character, require the first part to
be the literal Bearer and the second part to be a present non-empty
token; otherwise 401 Missing auth token. Then verify the token string:
on failure 401 Invalid or expired token, on success bind the resolved
claims. The verification function is a parameter because it is the
external jsonwebtoken call. -/
def requireAuth (verify : String → Except VerifyError Claims)
    (authorization : Option String) : AuthResult :=
  let header := authorization.getD ""
  let parts := jsSplit (fun c => c == ' ') header
  let ty := parts.headD ""
  let token := (parts[1]?).getD ""
  if ty != "Bearer" || token == "" then .reject 401 "Missing auth token"
  else
    match verify token with
    | .ok payload => .ok payload
    | .error _ => .reject 401 "Invalid or expired token"

/-- A whitespace character: space, tab, line feed or carriage return. -/
def isWs (c : Char) : Bool :=
  c == ' ' || c == '\t' || c == '\n' || c == '\r'

/-- A refinement model that follows the claim as worded: the header is
split on whitespace (any whitespace character) rather than on the
space character. Compared against requireAuth, which embeds the
source. -/
def requireAuthWsSplit (verify : String → Except VerifyError Claims)
    (authorization : Option String) : AuthResult :=
  let header := authorization.getD ""
  let parts := jsSplit isWs header
  let ty := parts.headD ""
  let token := (parts[1]?).getD ""
  if ty != "Bearer" || token == "" then .reject 401 "Missing auth token"
  else
    match verify token with
    | .ok payload => .ok payload
    | .error _ => .reject 401 "Invalid or expired token"

/-- The token-extraction step of requireAuth on its own: some token
when the header parses as the literal Bearer scheme followed by a
non-empty token after splitting on the space character, none
otherwise. -/
def authToken (authorization : Option String) : Option String :=
  let header := authorization.getD ""
  let parts := jsSplit (fun c => c == ' ') header
  let ty := parts.headD ""
  let token := (parts[1]?).getD ""
  if ty == "Bearer" && token != "" then some token else none

/-! ### Credential store, register and login -/

/-- A stored password hash. Modelled from the spec: bcrypt is an
external library; the spec requires a salted one-way hash whose verify
succeeds exactly when the raw password matches, so the model keeps the
salt and the hashed password abstractly to make compare exact. -/
structure HashVal where
  salt : Nat
  hashed : String
deriving DecidableEq, Repr

/-- bcrypt.hash with a per-call salt. -/
def bcryptHash (password : String) (salt : Nat) : HashVal :=
  ⟨salt, password⟩

/-- bcrypt.compare: true exactly when the raw password is the one that
was hashed. -/
def bcryptCompare (password : String) (h : HashVal) : Bool :=
  h.hashed == password

/-- A row of the users table: id, email (stored lowercased by the
register handler), password hash. -/
structure UserRow where
  id : Nat
  email : String
  passwordHash : HashVal
deriving DecidableEq, Repr

/-- The users table with its id sequence. -/
structure UsersDB where
  rows : List UserRow
  nextId : Nat
deriving DecidableEq, Repr

/-- The zod input check of the register and login handlers on the
email field. Modelled from the spec: zod is an external library; the
spec only requires a valid email format, kept abstract as containing
an at sign. -/
def emailFormatOk (s : String) : Bool := s.data.contains '@'

/-- The zod check of the register handler: a valid email and a
password of at least 6 characters. -/
def registerInputOk (email password : String) : Bool :=
  emailFormatOk email && decide (6 ≤ password.length)

/-- The zod check of the login handler: a valid email and a non-empty
password. -/
def loginInputOk (email password : String) : Bool :=
  emailFormatOk email && decide (1 ≤ password.length)

/-- Response of the register handler. -/
inductive RegResp
  | ok (token : Token) (userId : Nat) (userEmail : String)
  | err (status : Nat) (msg : String)
deriving DecidableEq, Repr

/-- POST /api/auth/register: validate the input, hash the password,
INSERT the lowercased email with the hash. A unique violation on the
email column (Postgres code 23505) is surfaced as 409 Email already
registered; on success the new row and a signed token are returned. -/
def registerUser (db : UsersDB) (salt secret now : Nat)
    (email password : String) : RegResp × UsersDB :=
  if !(registerInputOk email password) then (.err 400 "Invalid input", db)
  else
    let e := strLower email
    if db.rows.any (fun u => u.email == e) then
      (.err 409 "Email already registered", db)
    else
      let u : UserRow := ⟨db.nextId, e, bcryptHash password salt⟩
      (.ok (signToken secret now ⟨u.id, u.email⟩) u.id u.email,
       ⟨db.rows ++ [u], db.nextId + 1⟩)

/-- Response of the login handler. -/
inductive LoginResp
  | ok (token : Token) (userId : Nat) (userEmail : String)
  | err (status : Nat) (msg : String)
deriving DecidableEq, Repr

/-- POST /api/auth/login: validate the input, SELECT the user row by
the lowercased email, 401 Invalid email or password when no row comes
back or when the bcrypt compare fails, otherwise sign and return a
token over the stored id and email. -/
def loginUser (db : UsersDB) (secret now : Nat)
    (email password : String) : LoginResp :=
  if !(loginInputOk email password) then .err 400 "Invalid input"
  else
    match db.rows.find? (fun u => u.email == strLower email) with
    | none => .err 401 "Invalid email or password"
    | some u =>
      if bcryptCompare password u.passwordHash then
        .ok (signToken secret now ⟨u.id, u.email⟩) u.id u.email
      else .err 401 "Invalid email or password"

/-! ### Demo data for witnesses and counterexamples -/

/-- A note owned by user 1. -/
def noteA : NoteRow := ⟨1, 1, "Dune", "Herbert", "desert planet", 0⟩

/-- A note owned by user 2. -/
def noteB : NoteRow := ⟨2, 2, "Emma", "Austen", "irony", 0⟩

/-- A two-user, two-note store. -/
def demoNotes : List NoteRow := [noteA, noteB]

/-- A demo verification function accepting exactly the token tok. -/
def vfDemo : String → Except VerifyError Claims :=
  fun s => if s == "tok" then .ok ⟨1, "a@x.com"⟩ else .error .invalid

/-- A demo user row. -/
def demoUser : UserRow := ⟨7, "a@x.com", bcryptHash "secret1" 3⟩

/-! ### Theorems -/

/-- Helper: in a store with pairwise distinct ids, no row satisfies
the point predicate formed from the id of a note owned by A when the
requesting user is a different B. -/
theorem matchRow_false_of_cross_user {db : List NoteRow} {A B : Nat} {n : NoteRow}
    (hids : (db.map NoteRow.id).Nodup) (hmem : n ∈ db)
    (hown : n.userId = A) (hAB : A ≠ B) :
    ∀ x ∈ db, matchRow (n.id : Int) B x = false := by
  intro x hx
  by_contra hmatch
  rw [Bool.not_eq_false, matchRow, Bool.and_eq_true, beq_iff_eq, beq_iff_eq] at hmatch
  obtain ⟨hid, huid⟩ := hmatch
  have hxn : x = n := List.inj_on_of_nodup_map hids hx hmem (by exact_mod_cast hid)
  subst hxn
  exact hAB (hown.symm.trans huid)

/-- C1: for distinct users A and B and a note of A in a store with
pairwise distinct ids, the list operation for B never includes the
note of A, and the get-one operation on the id of the note of A with
the identity of B answers 404 Not found (a not-found error, not a
forbidden one), because every read filters by both note id and owner
id. -/
theorem cross_user_reads_hidden (db : List NoteRow) (A B : Nat) (n : NoteRow)
    (hids : (db.map NoteRow.id).Nodup) (hmem : n ∈ db)
    (hown : n.userId = A) (hAB : A ≠ B) :
    (∀ r ∈ listByOwner db B, r.id ≠ n.id) ∧
    getNoteHandler db B (.finite (n.id : Int)) = ⟨.err 404 "Not found", true⟩ := by
  constructor
  · intro r hr hid
    obtain ⟨m, hm, hproj⟩ := List.mem_map.mp hr
    have hmf : m ∈ db.filter (fun x => x.userId == B) :=
      (List.perm_insertionSort descRow _).mem_iff.mp hm
    have hmdb : m ∈ db := List.mem_of_mem_filter hmf
    have hmB : m.userId = B := by simpa using List.of_mem_filter hmf
    have hmid : (projFull m).id = n.id := hproj ▸ hid
    have hmn : m = n := List.inj_on_of_nodup_map hids hmdb hmem hmid
    subst hmn
    exact hAB (hown.symm.trans hmB)
  · have hfind : db.find? (matchRow (n.id : Int) B) = none :=
      List.find?_eq_none.mpr (by
        intro x hx hp
        exact absurd hp (by simp [matchRow_false_of_cross_user hids hmem hown hAB x hx]))
    simp [getNoteHandler, getOne, hfind]

/-- Witness for C1 at a concrete two-user store. -/
theorem cross_user_reads_hidden_witness :
    (∀ r ∈ listByOwner demoNotes 2, r.id ≠ noteA.id) ∧
    getNoteHandler demoNotes 2 (.finite (noteA.id : Int)) = ⟨.err 404 "Not found", true⟩ :=
  cross_user_reads_hidden demoNotes 1 2 noteA (by decide) (by decide) rfl (by decide)

/-- C2: for distinct users A and B and a note of A in a store with
pairwise distinct ids, the delete operation on the id of the note of A
with the identity of B affects zero rows, answers 404 Not found, and
leaves the store exactly as it was. -/
theorem cross_user_delete_not_found (db : List NoteRow) (A B : Nat) (n : NoteRow)
    (hids : (db.map NoteRow.id).Nodup) (hmem : n ∈ db)
    (hown : n.userId = A) (hAB : A ≠ B) :
    deleteNoteHandler db B (.finite (n.id : Int)) = ⟨.err 404 "Not found", db, true⟩ := by
  have hfalse := matchRow_false_of_cross_user hids hmem hown hAB
  have hcnt : db.countP (matchRow (n.id : Int) B) = 0 :=
    List.countP_eq_zero.mpr (by intro a ha; simp [hfalse a ha])
  have hfil : db.filter (fun x => !(matchRow (n.id : Int) B x)) = db :=
    List.filter_eq_self.mpr (by intro a ha; simp [hfalse a ha])
  simp [deleteNoteHandler, deleteOne, hcnt, hfil]

/-- Witness for C2 at a concrete two-user store. -/
theorem cross_user_delete_not_found_witness :
    deleteNoteHandler demoNotes 2 (.finite (noteA.id : Int)) =
      ⟨.err 404 "Not found", demoNotes, true⟩ :=
  cross_user_delete_not_found demoNotes 1 2 noteA (by decide) (by decide) rfl (by decide)

/-- C3: deleting an existing note twice under the identity of its
owner: the first call affects a row and reports success, the second
call on the same id affects zero rows and answers 404 Not found. -/
theorem owner_delete_twice (db : List NoteRow) (A : Nat) (n : NoteRow)
    (hmem : n ∈ db) (hown : n.userId = A) :
    ∃ db₂,
      deleteNoteHandler db A (.finite (n.id : Int)) = ⟨.ok, db₂, true⟩ ∧
      deleteNoteHandler db₂ A (.finite (n.id : Int)) = ⟨.err 404 "Not found", db₂, true⟩ := by
  refine ⟨db.filter (fun x => !(matchRow (n.id : Int) A x)), ?_, ?_⟩
  · have hp : matchRow (n.id : Int) A n = true := by simp [matchRow, hown]
    have hpos : 0 < db.countP (matchRow (n.id : Int) A) :=
      List.countP_pos_iff.mpr ⟨n, hmem, hp⟩
    have hne : db.countP (matchRow (n.id : Int) A) ≠ 0 := Nat.pos_iff_ne_zero.mp hpos
    simp [deleteNoteHandler, deleteOne, hne]
  · have hall : ∀ x ∈ db.filter (fun y => !(matchRow (n.id : Int) A y)),
        matchRow (n.id : Int) A x = false := by
      intro x hx
      simpa using List.of_mem_filter hx
    have hcnt :
        (db.filter (fun y => !(matchRow (n.id : Int) A y))).countP (matchRow (n.id : Int) A) = 0 :=
      List.countP_eq_zero.mpr (by intro a ha; simp [hall a ha])
    have hfil :
        (db.filter (fun y => !(matchRow (n.id : Int) A y))).filter
          (fun x => !(matchRow (n.id : Int) A x)) =
        db.filter (fun y => !(matchRow (n.id : Int) A y)) :=
      List.filter_eq_self.mpr (by intro a ha; simp [hall a ha])
    simp [deleteNoteHandler, deleteOne, hcnt, hfil]

/-- Witness for C3 at a concrete store. -/
theorem owner_delete_twice_witness :
    ∃ db₂,
      deleteNoteHandler demoNotes 1 (.finite (noteA.id : Int)) = ⟨.ok, db₂, true⟩ ∧
      deleteNoteHandler db₂ 1 (.finite (noteA.id : Int)) = ⟨.err 404 "Not found", db₂, true⟩ :=
  owner_delete_twice demoNotes 1 noteA (by decide) rfl

/-- C4: the list operation returns exactly the notes whose owner
matches the requesting user (as a permutation of the owner-filtered
projection of the store) and its output is ordered by id descending. -/
theorem listByOwner_exact_and_sorted (db : List NoteRow) (uid : Nat) :
    (listByOwner db uid).Perm ((db.filter (fun n => n.userId == uid)).map projFull) ∧
    (listByOwner db uid).Sorted (fun a b => b.id ≤ a.id) := by
  constructor
  · exact (List.perm_insertionSort descRow _).map projFull
  · exact List.Pairwise.map projFull (fun _ _ h => h)
      (List.sorted_insertionSort descRow (db.filter (fun n => n.userId == uid)))

/-- C10: a get-one or delete request whose id path parameter is not a
finite number is rejected with 400 Invalid id before any storage
access, in both server variants: no query is issued and the note store
is unchanged. -/
theorem invalid_id_short_circuits (db : List NoteRow) (uid : Nat) (db₂ : List BasicNote) :
    getNoteHandler db uid .notFinite = ⟨.err 400 "Invalid id", false⟩ ∧
    deleteNoteHandler db uid .notFinite = ⟨.err 400 "Invalid id", db, false⟩ ∧
    getNoteBasicHandler db₂ .notFinite = ⟨.err 400 "Invalid id", false⟩ ∧
    deleteNoteBasicHandler db₂ .notFinite = ⟨.err 400 "Invalid id", db₂, false⟩ :=
  ⟨rfl, rfl, rfl, rfl⟩

/-- C5 counterexample: in the authenticated variant the list query
selects the note column, so a list entry carries the full body text of
the stored note — the entry does not omit the body. -/
theorem list_entry_carries_body_counterexample :
    ∃ r ∈ listByOwner [noteA] 1, r.note = "desert planet" ∧ r.note ≠ "" := by
  refine ⟨projFull noteA, by decide, rfl, by decide⟩

/-- C5 amended: in the authenticated variant every list entry includes
the body text of its stored note; only the non-authenticated variant
produces summaries, whose projection ignores the body and through
which only id, title, author and creation time are obtainable. -/
theorem list_body_policy (db : List NoteRow) (uid : Nat)
    (bn : BasicNote) (b : String) (db₂ : List BasicNote) :
    (∀ r ∈ listByOwner db uid, ∃ m, m ∈ db ∧ m.userId = uid ∧ r.note = m.note) ∧
    projBasicSummary { bn with note := b } = projBasicSummary bn ∧
    (∀ s ∈ listNotesBasic db₂, ∃ m, m ∈ db₂ ∧ s = projBasicSummary m) := by
  refine ⟨?_, rfl, ?_⟩
  · intro r hr
    obtain ⟨m, hm, hproj⟩ := List.mem_map.mp hr
    have hmf : m ∈ db.filter (fun x => x.userId == uid) :=
      (List.perm_insertionSort descRow _).mem_iff.mp hm
    refine ⟨m, List.mem_of_mem_filter hmf, by simpa using List.of_mem_filter hmf, ?_⟩
    rw [← hproj]
    rfl
  · intro s hs
    obtain ⟨m, hm, hproj⟩ := List.mem_map.mp hs
    exact ⟨m, (List.perm_insertionSort descBasic _).mem_iff.mp hm, hproj.symm⟩

/-- Witness for the amended C5 at a concrete store. -/
theorem list_body_policy_witness :
    ∃ m, m ∈ [noteA] ∧ m.userId = 1 ∧ (projFull noteA).note = m.note :=
  (list_body_policy [noteA] 1 ⟨1, "t", "a", "x", "c"⟩ "y" []).1 (projFull noteA) (by decide)

/-- C6 counterexample: the gate splits the header on the space
character, not on whitespace. A header whose scheme and token are
separated by a tab is rejected with Missing auth token even when the
token would verify, while the whitespace-splitting model described by
the claim accepts it. -/
theorem auth_gate_split_counterexample :
    requireAuth vfDemo (some "Bearer\ttok") = .reject 401 "Missing auth token" ∧
    requireAuthWsSplit vfDemo (some "Bearer\ttok") = .ok ⟨1, "a@x.com"⟩ := by
  constructor <;> rfl

/-- Helper: requireAuth factors through token extraction followed by
verification dispatch. -/
theorem requireAuth_eq_match (vf : String → Except VerifyError Claims) (h : Option String) :
    requireAuth vf h =
      match authToken h with
      | none => .reject 401 "Missing auth token"
      | some t =>
        match vf t with
        | .ok c => .ok c
        | .error _ => .reject 401 "Invalid or expired token" := by
  unfold authToken requireAuth
  by_cases hty : (jsSplit (fun c => c == ' ') (h.getD "")).head?.getD "" = "Bearer"
  · by_cases htk : ((jsSplit (fun c => c == ' ') (h.getD ""))[1]?).getD "" = ""
    · simp [hty, htk]
    · simp [hty, htk]
  · simp [hty]

/-- C6 amended: the gate splits the header value on the space
character and requires the literal scheme Bearer plus a present
non-empty token; when extraction fails it rejects with 401 Missing
auth token, when the extracted token fails verification it rejects
with 401 Invalid or expired token, and when verification succeeds it
binds the resolved claims into the request context. -/
theorem auth_gate_dispatch (vf : String → Except VerifyError Claims) (h : Option String) :
    (authToken h = none → requireAuth vf h = .reject 401 "Missing auth token") ∧
    (∀ t c, authToken h = some t → vf t = .ok c → requireAuth vf h = .ok c) ∧
    (∀ t e, authToken h = some t → vf t = .error e →
      requireAuth vf h = .reject 401 "Invalid or expired token") := by
  have hm := requireAuth_eq_match vf h
  refine ⟨?_, ?_, ?_⟩
  · intro hnone
    rw [hm, hnone]
  · intro t c hsome hv
    rw [hm, hsome]
    simp [hv]
  · intro t e hsome hv
    rw [hm, hsome]
    simp [hv]

/-- Witness for the amended C6 at a concrete header. -/
theorem auth_gate_dispatch_witness :
    requireAuth vfDemo (some "Bearer tok") = .ok ⟨1, "a@x.com"⟩ :=
  (auth_gate_dispatch vfDemo (some "Bearer tok")).2.1 "tok" ⟨1, "a@x.com"⟩ (by decide) rfl

/-- C7: a token issued at time T with the server secret is accepted
(resolving back to its claims) at every time up to T plus 7 days and
rejected as expired at every later time: an expired token is never
accepted and an unexpired correctly-signed token is never rejected. -/
theorem token_validity_window (secret T t : Nat) (c : Claims) :
    (t ≤ T + sevenDays → verifyToken secret t (signToken secret T c) = .ok c) ∧
    (T + sevenDays < t → verifyToken secret t (signToken secret T c) = .error .expired) := by
  unfold verifyToken signToken
  constructor
  · intro hle
    simp [hle]
  · intro hgt
    simp [Nat.not_le.mpr hgt]

/-- Witness for C7 at both sides of the window. -/
theorem token_validity_window_witness :
    verifyToken 9 sevenDays (signToken 9 0 ⟨1, "a@x.com"⟩) = .ok ⟨1, "a@x.com"⟩ ∧
    verifyToken 9 (sevenDays + 1) (signToken 9 0 ⟨1, "a@x.com"⟩) = .error .expired :=
  ⟨(token_validity_window 9 0 sevenDays ⟨1, "a@x.com"⟩).1 (by omega),
   (token_validity_window 9 0 (sevenDays + 1) ⟨1, "a@x.com"⟩).2 (by omega)⟩

/-- Helper: registration fails with the 409 conflict and leaves the
store unchanged whenever some stored row already carries the
lowercased email. -/
theorem registerUser_conflict_of_any {db : UsersDB} {salt secret now : Nat} {e p : String}
    (hv : registerInputOk e p = true)
    (hdup : db.rows.any (fun u => u.email == strLower e) = true) :
    registerUser db salt secret now e p = (.err 409 "Email already registered", db) := by
  simp [registerUser, hv, hdup]

/-- C8: a valid registration on a store holding no row with the
lowercased email creates exactly one user row, carrying that
lowercased email; a second registration whose email equals it up to
case always fails with 409 Email already registered (the unique
violation surfaced as a domain error) and leaves the store exactly as
it was. -/
theorem register_conflict (db : UsersDB) (salt secret now salt₂ secret₂ now₂ : Nat)
    (e₁ p₁ e₂ p₂ : String)
    (hv₁ : registerInputOk e₁ p₁ = true)
    (hv₂ : registerInputOk e₂ p₂ = true)
    (hfresh : ∀ u ∈ db.rows, u.email ≠ strLower e₁)
    (hsame : strLower e₂ = strLower e₁) :
    registerUser db salt secret now e₁ p₁ =
      (.ok (signToken secret now ⟨db.nextId, strLower e₁⟩) db.nextId (strLower e₁),
       ⟨db.rows ++ [⟨db.nextId, strLower e₁, bcryptHash p₁ salt⟩], db.nextId + 1⟩) ∧
    registerUser ⟨db.rows ++ [⟨db.nextId, strLower e₁, bcryptHash p₁ salt⟩], db.nextId + 1⟩
        salt₂ secret₂ now₂ e₂ p₂ =
      (.err 409 "Email already registered",
       ⟨db.rows ++ [⟨db.nextId, strLower e₁, bcryptHash p₁ salt⟩], db.nextId + 1⟩) := by
  have hany : db.rows.any (fun u => u.email == strLower e₁) = false := by
    rw [List.any_eq_false]
    intro u hu
    simpa using hfresh u hu
  constructor
  · simp [registerUser, hv₁, hany]
  · have hmem : (⟨db.nextId, strLower e₁, bcryptHash p₁ salt⟩ : UserRow) ∈
        db.rows ++ [⟨db.nextId, strLower e₁, bcryptHash p₁ salt⟩] :=
      List.mem_append_right _ (List.mem_singleton.mpr rfl)
    have hrow :
        ((⟨db.nextId, strLower e₁, bcryptHash p₁ salt⟩ : UserRow).email == strLower e₂) = true := by
      simp [hsame]
    have hany₂ :
        (db.rows ++ [(⟨db.nextId, strLower e₁, bcryptHash p₁ salt⟩ : UserRow)]).any
          (fun u => u.email == strLower e₂) = true := by
      rw [List.any_eq_true]
      exact Exists.intro (⟨db.nextId, strLower e₁, bcryptHash p₁ salt⟩ : UserRow) ⟨hmem, hrow⟩
    exact registerUser_conflict_of_any hv₂ hany₂

/-- Witness for C8: registering an email, then registering it again
with different letter case. -/
theorem register_conflict_witness :
    registerUser ⟨[], 1⟩ 3 9 0 "A@x.com" "secret1" =
      (.ok (signToken 9 0 ⟨1, strLower "A@x.com"⟩) 1 (strLower "A@x.com"),
       ⟨[⟨1, strLower "A@x.com", bcryptHash "secret1" 3⟩], 2⟩) ∧
    registerUser ⟨[⟨1, strLower "A@x.com", bcryptHash "secret1" 3⟩], 2⟩
        4 9 5 "a@X.com" "secret2" =
      (.err 409 "Email already registered",
       ⟨[⟨1, strLower "A@x.com", bcryptHash "secret1" 3⟩], 2⟩) :=
  register_conflict ⟨[], 1⟩ 3 9 0 4 9 5 "A@x.com" "secret1" "a@X.com" "secret2"
    (by decide) (by decide) (by simp) (by decide)

/-- C9: for a stored user found by the lowercased email, login with
the correct password issues a token over exactly that id and email,
and verifying the token within its window resolves back to them; login
with a wrong password on the same email and login with an email that
matches no row produce the identical externally-visible error, 401
Invalid email or password. -/
theorem login_roundtrip (db : UsersDB) (secret now : Nat) (e p : String) (u : UserRow)
    (hv : loginInputOk e p = true)
    (hfind : db.rows.find? (fun x => x.email == strLower e) = some u)
    (hpw : bcryptCompare p u.passwordHash = true) :
    (loginUser db secret now e p = .ok (signToken secret now ⟨u.id, u.email⟩) u.id u.email ∧
     ∀ t, t ≤ now + sevenDays →
       verifyToken secret t (signToken secret now ⟨u.id, u.email⟩) = .ok ⟨u.id, u.email⟩) ∧
    (∀ p₂, loginInputOk e p₂ = true → bcryptCompare p₂ u.passwordHash = false →
      loginUser db secret now e p₂ = .err 401 "Invalid email or password") ∧
    (∀ e₂ p₂, loginInputOk e₂ p₂ = true →
      db.rows.find? (fun x => x.email == strLower e₂) = none →
      loginUser db secret now e₂ p₂ = .err 401 "Invalid email or password") := by
  refine ⟨⟨?_, ?_⟩, ?_, ?_⟩
  · simp [loginUser, hv, hfind, hpw]
  · intro t hle
    simp [verifyToken, signToken, hle]
  · intro p₂ hv₂ hpw₂
    simp [loginUser, hv₂, hfind, hpw₂]
  · intro e₂ p₂ hv₂ hnone
    simp [loginUser, hv₂, hnone]

/-- Witness for C9 at a concrete one-user store. -/
theorem login_roundtrip_witness :
    loginUser ⟨[demoUser], 8⟩ 9 0 "a@x.com" "secret1" =
      .ok (signToken 9 0 ⟨demoUser.id, demoUser.email⟩) demoUser.id demoUser.email :=
  ((login_roundtrip ⟨[demoUser], 8⟩ 9 0 "a@x.com" "secret1" demoUser
    (by decide) (by decide) (by decide)).1).1

end BookNotes
